import Mathlib

/-!
Shallow embedding of the AF_XDP user-space driver in
`src/afterburner-app/src/xsk.rs` and of the receive-loop transaction
parsing and CLI argument handling in `src/afterburner-app/src/main.rs`.

Machine integers are modelled as `Nat` with explicit reduction modulo
`2 ^ 32` wherever the Rust code performs `u32` arithmetic (ring indices
use unsigned wrap semantics).  Raw UMEM pointers are represented by the
byte offsets they address.  The kernel side of each ring (the values the
kernel would have written into the mapped producer/consumer words and
descriptor slots) is part of the modelled state; syscall outcomes during
construction are supplied by an explicit environment record.
-/

/-- UMEM_SIZE from xsk.rs: 8 * 1024 * 1024. -/
def UMEM_SIZE : Nat := 8 * 1024 * 1024

/-- FRAME_SIZE from xsk.rs: 4096. -/
def FRAME_SIZE : Nat := 4096

/-- NUM_FRAMES from xsk.rs: UMEM_SIZE / FRAME_SIZE. -/
def NUM_FRAMES : Nat := UMEM_SIZE / FRAME_SIZE

/-- RING_SIZE from xsk.rs: 2048. -/
def RING_SIZE : Nat := 2048

/-- Modulus of Rust u32 arithmetic. -/
def U32 : Nat := 2 ^ 32

/-- Slot-index masking `idx & (RING_SIZE - 1)` used by every ring access. -/
def maskIdx (x : Nat) : Nat := x &&& (RING_SIZE - 1)

/-- Ring occupancy `producer - consumer` under u32 wrap subtraction
(for producer, consumer < U32 this is the wrapped difference). -/
def ringOcc (prod cons : Nat) : Nat := (prod + U32 - cons) % U32

/-- struct XdpDesc from xsk.rs: `addr: u64, len: u32, options: u32`. -/
structure XdpDesc where
  addr : Nat
  len : Nat
  options : Nat
  deriving DecidableEq

/-- A ring whose descriptor array holds u64 frame offsets (FILL, COMPLETION).
In the source both variants share `struct XdpRing` with an untyped `desc`
pointer cast at each use site; here the two descriptor layouts get separate
structures.  `slots` is the descriptor array, indexed by masked slot index. -/
structure U64Ring where
  producer : Nat
  consumer : Nat
  slots : Nat → Nat

/-- A ring whose descriptor array holds XdpDesc records (RX, TX). -/
structure DescRing where
  producer : Nat
  consumer : Nat
  slots : Nat → XdpDesc

/-- Write one u64 descriptor slot. -/
def setSlot (slots : Nat → Nat) (i v : Nat) : Nat → Nat :=
  fun j => if j = i then v else slots j

/-- Write one XdpDesc descriptor slot. -/
def setDesc (slots : Nat → XdpDesc) (i : Nat) (d : XdpDesc) : Nat → XdpDesc :=
  fun j => if j = i then d else slots j

/-- struct XdpSocket from xsk.rs, restricted to the fields the runtime
operations touch.  `fd`, `umem_ptr` and `umem_size` carry no datapath
state (the UMEM base pointer is modelled as offset 0). -/
structure XdpSocket where
  rx_ring : DescRing
  tx_ring : DescRing
  fill_ring : U64Ring
  comp_ring : U64Ring
  tx_free_frames : List Nat
  pending_tx_addr : Option Nat

namespace XdpSocket

/-- XdpSocket::poll_rx (xsk.rs lines 226-246).  Loads the RX consumer and
producer; if equal returns none.  Otherwise reads the descriptor at
`cons & (size - 1)`, stores `cons + 1` to the RX consumer, then writes the
dequeued addr at `fill_prod & (size - 1)` on FILL and stores
`fill_prod + 1` to the FILL producer — unconditionally, with no fullness
check.  Returns `(addr, len)`. -/
def poll_rx (s : XdpSocket) : Option (Nat × Nat) × XdpSocket :=
  let cons := s.rx_ring.consumer
  let prod := s.rx_ring.producer
  if cons = prod then (none, s)
  else
    let desc := s.rx_ring.slots (maskIdx cons)
    let addr := desc.addr
    let len := desc.len
    let s1 : XdpSocket :=
      { s with rx_ring := { s.rx_ring with consumer := (cons + 1) % U32 } }
    let fill_prod := s1.fill_ring.producer
    let s2 : XdpSocket :=
      { s1 with fill_ring :=
          { s1.fill_ring with
              slots := setSlot s1.fill_ring.slots (maskIdx fill_prod) addr,
              producer := (fill_prod + 1) % U32 } }
    (some (addr, len), s2)

/-- The completion-drain loop of get_tx_frame (xsk.rs lines 252-256):
`while c != prod { push(slots[c & mask]); c += 1 }`, unrolled over its
iteration count `n = ringOcc prod cons`; returns the offsets pushed, in
push order.  `c` wraps modulo U32 exactly as the u32 counter does. -/
def drainComp (slots : Nat → Nat) : Nat → Nat → List Nat
  | _, 0 => []
  | c, Nat.succ n => slots (maskIdx c) :: drainComp slots ((c + 1) % U32) n

/-- XdpSocket::get_tx_frame (xsk.rs lines 248-270).  First drains the
COMPLETION ring onto tx_free_frames and stores the advanced consumer
(`(cons + n) % U32`, which the loop reached; the source skips the store
when nothing was drained, in which case the value stored here equals the
old one).  Then the TX backpressure check: if
`tx_producer - tx_consumer >= RING_SIZE` (u32 wrap subtraction) returns
none.  Finally pops the last free-list entry, records it as
pending_tx_addr, and returns the FRAME_SIZE-byte slice at `umem + addr`,
modelled as the pair `(addr, FRAME_SIZE)`. -/
def get_tx_frame (s : XdpSocket) : Option (Nat × Nat) × XdpSocket :=
  let cons := s.comp_ring.consumer
  let prod := s.comp_ring.producer
  let n := ringOcc prod cons
  let free := s.tx_free_frames ++ drainComp s.comp_ring.slots cons n
  let s1 : XdpSocket :=
    { s with tx_free_frames := free,
             comp_ring := { s.comp_ring with consumer := (cons + n) % U32 } }
  if RING_SIZE ≤ ringOcc s1.tx_ring.producer s1.tx_ring.consumer then (none, s1)
  else
    match free.getLast? with
    | some addr =>
        (some (addr, FRAME_SIZE),
         { s1 with tx_free_frames := free.dropLast, pending_tx_addr := some addr })
    | none => (none, s1)

/-- XdpSocket::tx_submit (xsk.rs lines 272-282).  If a pending-TX addr
exists: writes the TX descriptor at `prod & (size - 1)` as
`{addr, len as u32, options = 0}`, stores `prod + 1`, clears the pending
slot, and issues the `sendto` wake-up poke whose result `sendtoRet` the
source discards (the returned state does not depend on it).  With no
pending addr the call is a no-op. -/
def tx_submit (s : XdpSocket) (len : Nat) (sendtoRet : Int) : XdpSocket :=
  match s.pending_tx_addr with
  | none => s
  | some addr =>
      let _ := sendtoRet
      let prod := s.tx_ring.producer
      { s with
          tx_ring :=
            { s.tx_ring with
                slots := setDesc s.tx_ring.slots (maskIdx prod)
                  { addr := addr, len := len % U32, options := 0 },
                producer := (prod + 1) % U32 },
          pending_tx_addr := none }

/-- XdpSocket::cancel_tx (xsk.rs lines 284-288): if a pending-TX addr
exists, push it back on tx_free_frames and clear the pending slot. -/
def cancel_tx (s : XdpSocket) : XdpSocket :=
  match s.pending_tx_addr with
  | none => s
  | some addr =>
      { s with tx_free_frames := s.tx_free_frames ++ [addr],
               pending_tx_addr := none }

end XdpSocket

/-- The FILL-seeding loop of XdpSocket::new (xsk.rs lines 195-200):
`for i in 0..(NUM_FRAMES / 2) { desc[prod & (RING_SIZE - 1)] = i * FRAME_SIZE; prod += 1 }`,
unrolled over the remaining iteration count, carrying the descriptor
array, the running u32 producer value and the loop variable `i`. -/
def seedFillFrom : (Nat → Nat) → Nat → Nat → Nat → (Nat → Nat) × Nat
  | slots, prod, _, 0 => (slots, prod)
  | slots, prod, i, Nat.succ n =>
      seedFillFrom (setSlot slots (maskIdx prod) (i * FRAME_SIZE))
        ((prod + 1) % U32) (i + 1) n

/-- Step 6 of XdpSocket::new (xsk.rs lines 194-201): load the FILL
producer, run the seeding loop for NUM_FRAMES / 2 iterations, store the
final producer value once. -/
def seedFill (r : U64Ring) : U64Ring :=
  let p := seedFillFrom r.slots r.producer 0 (NUM_FRAMES / 2)
  { r with slots := p.1, producer := p.2 }

/-- A freshly kernel-mapped u64 ring: indices zero, descriptor words zero. -/
def freshU64Ring : U64Ring := { producer := 0, consumer := 0, slots := fun _ => 0 }

/-- A freshly kernel-mapped descriptor ring: indices zero, slots zero. -/
def freshDescRing : DescRing :=
  { producer := 0, consumer := 0, slots := fun _ => { addr := 0, len := 0, options := 0 } }

/-- Outcomes of the system calls XdpSocket::new issues, in program order,
together with the initial contents of the four kernel-mapped rings.
Each Bool is true when the corresponding call succeeds (socket() >= 0,
mmap not MAP_FAILED, setsockopt/getsockopt/bind returning 0,
CString::new not hitting an interior NUL). -/
structure SyscallEnv where
  socket_ok : Bool
  huge_ok : Bool
  regular_ok : Bool
  umem_reg_ok : Bool
  fill_size_ok : Bool
  comp_size_ok : Bool
  rx_size_ok : Bool
  tx_size_ok : Bool
  offsets_ok : Bool
  fill_map_ok : Bool
  comp_map_ok : Bool
  rx_map_ok : Bool
  tx_map_ok : Bool
  cstring_ok : Bool
  bind1_ok : Bool
  bind2_ok : Bool
  fill0 : U64Ring
  comp0 : U64Ring
  rx0 : DescRing
  tx0 : DescRing

/-- allocate_umem (xsk.rs lines 23-56): try the HUGETLB mapping, fall
back to regular pages, and fail only when both mmaps fail. -/
def allocate_umem (env : SyscallEnv) : Bool := env.huge_ok || env.regular_ok

/-- XdpSocket::new (xsk.rs lines 115-224).  Mirrors the source's
early-return structure: socket creation, UMEM allocation, UMEM
registration and the four ring mmaps each return an error on failure.
The four ring-size setsockopt calls (lines 132-135) and the
XDP_MMAP_OFFSETS getsockopt (line 140) have their return values
discarded, so their outcomes do not affect the result; `CString::new`
propagates its error via `?` (line 208); the first bind failure only
triggers the XDP_COPY retry whose own result is discarded
(lines 214-217). -/
def XdpSocket.new (env : SyscallEnv) : Except String XdpSocket :=
  if !env.socket_ok then .error "Failed to create socket"
  else if !(allocate_umem env) then .error "Failed to allocate UMEM"
  else if !env.umem_reg_ok then .error "Failed to register UMEM"
  else if !env.fill_map_ok then .error "Failed to map Fill Ring"
  else if !env.comp_map_ok then .error "Failed to map Completion Ring"
  else if !env.rx_map_ok then .error "Failed to map RX Ring"
  else if !env.tx_map_ok then .error "Failed to map TX Ring"
  else
    let fill := seedFill env.fill0
    let tx_free := ((List.range NUM_FRAMES).drop (NUM_FRAMES / 2)).map (fun i => i * FRAME_SIZE)
    if !env.cstring_ok then .error "nul byte found in provided data"
    else
      .ok { rx_ring := env.rx0, tx_ring := env.tx0, fill_ring := fill,
            comp_ring := env.comp0, tx_free_frames := tx_free,
            pending_tx_addr := none }

/-- The live (published, unconsumed) descriptor words of a u64 ring:
slot contents at masked indices consumer, consumer + 1, …,
consumer + occupancy - 1. -/
def u64Live (r : U64Ring) : List Nat :=
  (List.range (ringOcc r.producer r.consumer)).map
    (fun k => r.slots (maskIdx (r.consumer + k)))

/-- The addrs of the live descriptors of an XdpDesc ring. -/
def descLive (r : DescRing) : List Nat :=
  (List.range (ringOcc r.producer r.consumer)).map
    (fun k => (r.slots (maskIdx (r.consumer + k))).addr)

/-- All frame offsets currently owned somewhere in the modelled state:
the user free-list, the pending-TX slot, and the live regions of the four
rings. -/
def owned (s : XdpSocket) : List Nat :=
  s.tx_free_frames ++ s.pending_tx_addr.toList ++ u64Live s.fill_ring ++
    u64Live s.comp_ring ++ descLive s.rx_ring ++ descLive s.tx_ring

/-- Ring counters are u32 values. -/
def WF (s : XdpSocket) : Prop :=
  s.rx_ring.producer < U32 ∧ s.rx_ring.consumer < U32 ∧
  s.tx_ring.producer < U32 ∧ s.tx_ring.consumer < U32 ∧
  s.fill_ring.producer < U32 ∧ s.fill_ring.consumer < U32 ∧
  s.comp_ring.producer < U32 ∧ s.comp_ring.consumer < U32

/-- One user-space driver call. -/
inductive XdpOp where
  | pollRx : XdpOp
  | getTxFrame : XdpOp
  | txSubmit : Nat → Int → XdpOp
  | cancelTx : XdpOp

/-- State effect of one driver call. -/
def applyOp (s : XdpSocket) : XdpOp → XdpSocket
  | .pollRx => (s.poll_rx).2
  | .getTxFrame => (s.get_tx_frame).2
  | .txSubmit len r => s.tx_submit len r
  | .cancelTx => s.cancel_tx

/-- State after a sequence of driver calls. -/
def runOps (s : XdpSocket) : List XdpOp → XdpSocket
  | [] => s
  | op :: ops => runOps (applyOp s op) ops

/-- The frame offset an operation result hands to the caller, if any. -/
def retAddr (r : Option (Nat × Nat)) : Option Nat := r.map Prod.fst

/-- struct Args from main.rs lines 12-17: one field
`#[arg(short, long, default_value = "eth0")] iface: String`. -/
structure Args where
  iface : String
  deriving DecidableEq

/-- Model of the clap parse dictated by the Args derive in main.rs lines
12-17: the iface value may be set by `--iface <name>` or `-i <name>`;
any other token is a parse error; a flag without a following value is a
parse error; when the flag never occurs, the declared
`default_value = "eth0"` applies and parsing succeeds. -/
def parseArgsFrom : List String → Option String → Except String Args
  | [], acc =>
      match acc with
      | some v => .ok { iface := v }
      | none => .ok { iface := "eth0" }
  | a :: rest, _acc =>
      if a = "--iface" || a = "-i" then
        match rest with
        | v :: rest2 => parseArgsFrom rest2 (some v)
        | [] => .error "a value is required"
      else .error "unexpected argument"

/-- Args::parse on the operand list (program name stripped). -/
def parseArgs (argv : List String) : Except String Args :=
  parseArgsFrom argv none

/-- HEADER_SIZE from main.rs: 42. -/
def HEADER_SIZE : Nat := 42

/-- SIG_SIZE from main.rs: 64. -/
def SIG_SIZE : Nat := 64

/-- PUBKEY_SIZE from main.rs: 32. -/
def PUBKEY_SIZE : Nat := 32

/-- Bounds-checked byte read, modelling Rust `raw_data[i]`: none is the
out-of-bounds panic. -/
def readByte (raw : List Nat) (i : Nat) : Option Nat := raw.get? i

/-- Bounds-checked sub-slice, modelling Rust `raw_data[a..b]`: none is
the out-of-bounds (or inverted-range) panic. -/
def readSlice (raw : List Nat) (a b : Nat) : Option (List Nat) :=
  if a ≤ b ∧ b ≤ raw.length then some ((raw.drop a).take (b - a)) else none

/-- The transaction-parsing step of the receive loop (main.rs lines
95-147), on the received byte slice.  The outer Option is panic
(none = an unguarded out-of-bounds access was hit); the inner Option is
whether the step reached the instruction-data print, and with which
bytes.  Every cursor move and guard mirrors the source: skip the
42-byte header, the signature count and `num_sigs * 64` signature bytes,
3 message-header bytes, the account count and `num_accounts * 32` key
bytes, the 32-byte blockhash, the instruction count, then the first
instruction's program-id index, its account-index count and bytes, its
data length, and finally the data slice. -/
def parsePacket (raw : List Nat) : Option (Option (List Nat)) :=
  let len := raw.length
  if HEADER_SIZE < len then
    let cursor := HEADER_SIZE
    if cursor < len then
      match readByte raw cursor with
      | none => none
      | some num_sigs =>
        let cursor := cursor + 1 + num_sigs * SIG_SIZE + 3
        if cursor < len then
          match readByte raw cursor with
          | none => none
          | some num_accounts =>
            let cursor := cursor + 1 + num_accounts * PUBKEY_SIZE + 32
            if cursor < len then
              match readByte raw cursor with
              | none => none
              | some _num_instructions =>
                let cursor := cursor + 1
                if cursor + 2 < len then
                  match readByte raw cursor, readByte raw (cursor + 1) with
                  | some _prog_id_idx, some acc_indices_len =>
                    let cursor := cursor + 2 + acc_indices_len
                    if cursor < len then
                      match readByte raw cursor with
                      | none => none
                      | some data_len =>
                        let cursor := cursor + 1
                        if cursor + data_len ≤ len then
                          match readSlice raw cursor (cursor + data_len) with
                          | none => none
                          | some d => some (some d)
                        else some none
                    else some none
                  | _, _ => none
                else some none
            else some none
        else some none
    else some none
  else some none

/-- Concrete state for claim C1: FILL full (producer 2048, consumer 0),
one undelivered RX descriptor `{addr 0, len 64}`. -/
def sEx1 : XdpSocket :=
  { rx_ring := { producer := 1, consumer := 0,
                 slots := fun _ => { addr := 0, len := 64, options := 0 } },
    tx_ring := freshDescRing,
    fill_ring := { producer := 2048, consumer := 0, slots := fun _ => 0 },
    comp_ring := freshU64Ring,
    tx_free_frames := [], pending_tx_addr := none }

/-- Concrete state for claim C3: one RX descriptor `{addr 0, len 64}`
published, everything else idle. -/
def sEx3 : XdpSocket :=
  { rx_ring := { producer := 1, consumer := 0,
                 slots := fun _ => { addr := 0, len := 64, options := 0 } },
    tx_ring := freshDescRing, fill_ring := freshU64Ring, comp_ring := freshU64Ring,
    tx_free_frames := [], pending_tx_addr := none }

/-- Concrete state for claim C4: two completed offsets 12288 and 16384
waiting on COMPLETION, free-list [4096], TX ring idle. -/
def sEx4 : XdpSocket :=
  { rx_ring := freshDescRing, tx_ring := freshDescRing, fill_ring := freshU64Ring,
    comp_ring := { producer := 2, consumer := 0,
                   slots := fun j => if j = 0 then 12288 else if j = 1 then 16384 else 0 },
    tx_free_frames := [4096], pending_tx_addr := none }

/-- Concrete state for claim C5: pending-TX slot holding offset 4096. -/
def sEx5 : XdpSocket :=
  { rx_ring := freshDescRing, tx_ring := freshDescRing, fill_ring := freshU64Ring,
    comp_ring := freshU64Ring, tx_free_frames := [], pending_tx_addr := some 4096 }

/-- Concrete state for claim C7: no pending slot, COMPLETION empty,
TX ring idle, free-list [4096]. -/
def sEx7 : XdpSocket :=
  { rx_ring := freshDescRing, tx_ring := freshDescRing, fill_ring := freshU64Ring,
    comp_ring := freshU64Ring, tx_free_frames := [4096], pending_tx_addr := none }

/-- Concrete state for claim C9: pending-TX slot holding offset 5, which
occurs nowhere else; free-list [8192]. -/
def sEx9 : XdpSocket :=
  { rx_ring := freshDescRing, tx_ring := freshDescRing, fill_ring := freshU64Ring,
    comp_ring := freshU64Ring, tx_free_frames := [8192], pending_tx_addr := some 5 }

/-- Environment for claim C2's counterexample: every call whose result the
claim says is checked — the four ring-size sets, the offsets query, and
both binds — fails, while the calls the code actually checks succeed. -/
def envBad : SyscallEnv :=
  { socket_ok := true, huge_ok := true, regular_ok := true, umem_reg_ok := true,
    fill_size_ok := false, comp_size_ok := false, rx_size_ok := false,
    tx_size_ok := false, offsets_ok := false,
    fill_map_ok := true, comp_map_ok := true, rx_map_ok := true, tx_map_ok := true,
    cstring_ok := true, bind1_ok := false, bind2_ok := false,
    fill0 := freshU64Ring, comp0 := freshU64Ring,
    rx0 := freshDescRing, tx0 := freshDescRing }

/-- Environment for claim C6's witness: every call succeeds and all four
rings come back freshly zeroed. -/
def envAllOk : SyscallEnv :=
  { socket_ok := true, huge_ok := true, regular_ok := true, umem_reg_ok := true,
    fill_size_ok := true, comp_size_ok := true, rx_size_ok := true,
    tx_size_ok := true, offsets_ok := true,
    fill_map_ok := true, comp_map_ok := true, rx_map_ok := true, tx_map_ok := true,
    cstring_ok := true, bind1_ok := true, bind2_ok := true,
    fill0 := freshU64Ring, comp0 := freshU64Ring,
    rx0 := freshDescRing, tx0 := freshDescRing }

/-- Numeric value of the u32 modulus. -/
theorem U32_eq : U32 = 4294967296 := by norm_num [U32]

/-- NUM_FRAMES evaluates to 2048. -/
theorem NUM_FRAMES_eq : NUM_FRAMES = 2048 := by
  norm_num [NUM_FRAMES, UMEM_SIZE, FRAME_SIZE]

/-- Mask-indexing with RING_SIZE - 1 is reduction modulo RING_SIZE. -/
theorem maskIdx_eq_mod (x : Nat) : maskIdx x = x % RING_SIZE := by
  have h : maskIdx x = x &&& (2 ^ 11 - 1) := rfl
  rw [h, Nat.and_pow_two_sub_one_eq_mod]
  rfl

/-- Mask-indexing only depends on the index modulo U32. -/
theorem maskIdx_congr {x y : Nat} (h : x % U32 = y % U32) : maskIdx x = maskIdx y := by
  have hdvd : RING_SIZE ∣ U32 := by
    rw [U32_eq]; norm_num [RING_SIZE]
  rw [maskIdx_eq_mod, maskIdx_eq_mod, ← Nat.mod_mod_of_dvd x hdvd,
    ← Nat.mod_mod_of_dvd y hdvd, h]

/-- An empty ring (equal indices) has occupancy zero. -/
theorem ringOcc_self (c : Nat) : ringOcc c c = 0 := by
  unfold ringOcc
  rw [U32_eq]
  omega

/-- Wrapped-consumer advance reaches the producer. -/
theorem cons_add_occ (c p : Nat) (hc : c < U32) (hp : p < U32) :
    (c + ringOcc p c) % U32 = p := by
  unfold ringOcc
  rw [U32_eq] at *
  omega

/-- Consuming one element decrements occupancy. -/
theorem ringOcc_consume (c p : Nat) (hc : c < U32) (hp : p < U32) (hne : c ≠ p) :
    0 < ringOcc p c ∧ ringOcc p ((c + 1) % U32) = ringOcc p c - 1 := by
  unfold ringOcc
  rw [U32_eq] at *
  omega

/-- Publishing one element changes occupancy to its wrapped successor. -/
theorem ringOcc_publish (c p : Nat) (hc : c < U32) (hp : p < U32) :
    ringOcc ((p + 1) % U32) c = (ringOcc p c + 1) % U32 := by
  unfold ringOcc
  rw [U32_eq] at *
  omega

/-- The completion-drain loop reads exactly the slots at masked indices
cons, cons + 1, …, cons + n - 1. -/
theorem drainComp_eq (slots : Nat → Nat) (n : Nat) :
    ∀ c, XdpSocket.drainComp slots c n =
      (List.range n).map (fun k => slots (maskIdx (c + k))) := by
  induction n with
  | zero => intro c; simp [XdpSocket.drainComp]
  | succ m ih =>
      intro c
      rw [List.range_succ_eq_map]
      simp only [XdpSocket.drainComp, List.map_cons, List.map_map]
      congr 1
      rw [ih]
      apply List.map_congr_left
      intro k _
      apply congrArg
      apply maskIdx_congr
      rw [U32_eq]
      omega

/-- Membership-free characterisation of u64 live regions. -/
theorem not_mem_u64Live (r : U64Ring) (X : Nat) :
    X ∉ u64Live r ↔
      ∀ k < ringOcc r.producer r.consumer, r.slots (maskIdx (r.consumer + k)) ≠ X := by
  simp [u64Live]

/-- Membership-free characterisation of descriptor-ring live addrs. -/
theorem not_mem_descLive (r : DescRing) (X : Nat) :
    X ∉ descLive r ↔
      ∀ k < ringOcc r.producer r.consumer, (r.slots (maskIdx (r.consumer + k))).addr ≠ X := by
  simp [descLive]

/-- Publishing one descriptor (write at the masked producer index, then
advance the producer) preserves any slotwise property of the live region
that the published value itself satisfies. -/
theorem publish_slot {α : Type} (slots : Nat → α) (p c : Nat) (hp : p < U32)
    (hc : c < U32) (v : α) (P : α → Prop) (hv : P v)
    (hold : ∀ k < ringOcc p c, P (slots (maskIdx (c + k)))) :
    ∀ k < ringOcc ((p + 1) % U32) c,
      P ((fun j => if j = maskIdx p then v else slots j) (maskIdx (c + k))) := by
  intro k hk
  by_cases h : maskIdx (c + k) = maskIdx p
  · simpa [h] using hv
  · simp only [h, if_neg, ite_false]
    apply hold
    rw [ringOcc_publish c p hc hp] at hk
    rcases Nat.lt_or_ge k (ringOcc p c) with hlt | hge
    · exact hlt
    · exfalso
      have h1 : ringOcc p c < U32 := by unfold ringOcc; rw [U32_eq]; omega
      have hk2 : k = ringOcc p c := by rw [U32_eq] at *; omega
      apply h
      subst hk2
      apply maskIdx_congr
      rw [cons_add_occ c p hc hp, Nat.mod_eq_of_lt hp]

/-- Consuming one descriptor (advance the consumer) preserves any
slotwise property of the live region. -/
theorem consume_slot {α : Type} (slots : Nat → α) (p c : Nat) (hp : p < U32)
    (hc : c < U32) (hne : c ≠ p) (P : α → Prop)
    (hold : ∀ k < ringOcc p c, P (slots (maskIdx (c + k)))) :
    ∀ k < ringOcc p ((c + 1) % U32), P (slots (maskIdx ((c + 1) % U32 + k))) := by
  intro k hk
  obtain ⟨hpos, hdec⟩ := ringOcc_consume c p hc hp hne
  have hmask : maskIdx ((c + 1) % U32 + k) = maskIdx (c + (k + 1)) := by
    apply maskIdx_congr
    rw [U32_eq]
    omega
  rw [hmask]
  apply hold
  rw [hdec] at hk
  omega

/-- poll_rx on an empty RX ring: no output, state unchanged. -/
theorem poll_rx_eq_none (s : XdpSocket) (h : s.rx_ring.consumer = s.rx_ring.producer) :
    s.poll_rx = (none, s) := by
  simp [XdpSocket.poll_rx, h]

/-- poll_rx on a non-empty RX ring, written out. -/
theorem poll_rx_eq_some (s : XdpSocket) (h : ¬s.rx_ring.consumer = s.rx_ring.producer) :
    s.poll_rx =
      (some ((s.rx_ring.slots (maskIdx s.rx_ring.consumer)).addr,
             (s.rx_ring.slots (maskIdx s.rx_ring.consumer)).len),
       { s with
           rx_ring := { s.rx_ring with consumer := (s.rx_ring.consumer + 1) % U32 },
           fill_ring := { s.fill_ring with
               slots := setSlot s.fill_ring.slots (maskIdx s.fill_ring.producer)
                 (s.rx_ring.slots (maskIdx s.rx_ring.consumer)).addr,
               producer := (s.fill_ring.producer + 1) % U32 } }) := by
  simp [XdpSocket.poll_rx, h]

/-- Reduction modulo U32 lands below U32. -/
theorem mod_U32_lt (x : Nat) : x % U32 < U32 := by
  apply Nat.mod_lt
  rw [U32_eq]
  omega

/-- poll_rx keeps the counters below U32. -/
theorem WF_pollRx (s : XdpSocket) (h : WF s) : WF (s.poll_rx).2 := by
  obtain ⟨h1, h2, h3, h4, h5, h6, h7, h8⟩ := h
  by_cases hc : s.rx_ring.consumer = s.rx_ring.producer
  · rw [poll_rx_eq_none s hc]
    exact ⟨h1, h2, h3, h4, h5, h6, h7, h8⟩
  · rw [poll_rx_eq_some s hc]
    exact ⟨h1, mod_U32_lt _, h3, h4, mod_U32_lt _, h6, h7, h8⟩

/-- get_tx_frame keeps the counters below U32. -/
theorem WF_getTx (s : XdpSocket) (h : WF s) : WF (s.get_tx_frame).2 := by
  obtain ⟨h1, h2, h3, h4, h5, h6, h7, h8⟩ := h
  simp only [XdpSocket.get_tx_frame]
  split
  · exact ⟨h1, h2, h3, h4, h5, h6, h7, mod_U32_lt _⟩
  · split
    · exact ⟨h1, h2, h3, h4, h5, h6, h7, mod_U32_lt _⟩
    · exact ⟨h1, h2, h3, h4, h5, h6, h7, mod_U32_lt _⟩

/-- tx_submit keeps the counters below U32. -/
theorem WF_txSubmit (s : XdpSocket) (len : Nat) (r : Int) (h : WF s) :
    WF (s.tx_submit len r) := by
  obtain ⟨h1, h2, h3, h4, h5, h6, h7, h8⟩ := h
  unfold XdpSocket.tx_submit
  split
  · exact ⟨h1, h2, h3, h4, h5, h6, h7, h8⟩
  · exact ⟨h1, h2, mod_U32_lt _, h4, h5, h6, h7, h8⟩

/-- cancel_tx keeps the counters below U32. -/
theorem WF_cancel (s : XdpSocket) (h : WF s) : WF (s.cancel_tx) := by
  obtain ⟨h1, h2, h3, h4, h5, h6, h7, h8⟩ := h
  unfold XdpSocket.cancel_tx
  split
  · exact ⟨h1, h2, h3, h4, h5, h6, h7, h8⟩
  · exact ⟨h1, h2, h3, h4, h5, h6, h7, h8⟩

/-- Unfolding of non-ownership over all six ownership sets. -/
theorem not_mem_owned (s : XdpSocket) (X : Nat) :
    X ∉ owned s ↔
      X ∉ s.tx_free_frames ∧ s.pending_tx_addr ≠ some X ∧
      X ∉ u64Live s.fill_ring ∧ X ∉ u64Live s.comp_ring ∧
      X ∉ descLive s.rx_ring ∧ X ∉ descLive s.tx_ring := by
  simp only [owned, List.mem_append, not_or]
  constructor
  · rintro ⟨⟨⟨⟨⟨ha, hb⟩, hc⟩, hd⟩, he⟩, hf⟩
    refine ⟨ha, ?_, hc, hd, he, hf⟩
    intro hsome
    apply hb
    simp [hsome]
  · rintro ⟨ha, hb, hc, hd, he, hf⟩
    refine ⟨⟨⟨⟨⟨ha, ?_⟩, hc⟩, hd⟩, he⟩, hf⟩
    intro htl
    apply hb
    cases hp : s.pending_tx_addr with
    | none => simp [hp] at htl
    | some a => simp [hp] at htl; subst htl; rfl

/-- poll_rx preserves non-ownership of X and never returns X. -/
theorem owned_pollRx (s : XdpSocket) (X : Nat) (hwf : WF s) (hX : X ∉ owned s) :
    X ∉ owned (s.poll_rx).2 ∧ retAddr (s.poll_rx).1 ≠ some X := by
  obtain ⟨hrp, hrc, htp, htc, hfp, hfc, hcp, hcc⟩ := hwf
  rw [not_mem_owned] at hX
  obtain ⟨hfree, hpend, hfill, hcomp, hrx, htx⟩ := hX
  by_cases hc : s.rx_ring.consumer = s.rx_ring.producer
  · rw [poll_rx_eq_none s hc]
    constructor
    · rw [not_mem_owned]
      exact ⟨hfree, hpend, hfill, hcomp, hrx, htx⟩
    · simp [retAddr]
  · have hocc : 0 < ringOcc s.rx_ring.producer s.rx_ring.consumer :=
      (ringOcc_consume _ _ hrc hrp hc).1
    have haddr : (s.rx_ring.slots (maskIdx s.rx_ring.consumer)).addr ≠ X := by
      have := (not_mem_descLive _ _).mp hrx 0 hocc
      simpa using this
    rw [poll_rx_eq_some s hc]
    constructor
    · rw [not_mem_owned]
      refine ⟨hfree, hpend, ?_, hcomp, ?_, htx⟩
      · rw [not_mem_u64Live]
        intro k hk
        have hold := (not_mem_u64Live _ _).mp hfill
        have := publish_slot s.fill_ring.slots s.fill_ring.producer s.fill_ring.consumer
          hfp hfc _ (fun v => v ≠ X) haddr hold k hk
        simpa [setSlot] using this
      · rw [not_mem_descLive]
        intro k hk
        have hold := (not_mem_descLive _ _).mp hrx
        exact consume_slot s.rx_ring.slots s.rx_ring.producer s.rx_ring.consumer
          hrp hrc hc (fun d => d.addr ≠ X) hold k hk
    · simp [retAddr]
      exact haddr

/-- get_tx_frame preserves non-ownership of X and never returns X. -/
theorem owned_getTx (s : XdpSocket) (X : Nat) (hwf : WF s) (hX : X ∉ owned s) :
    X ∉ owned (s.get_tx_frame).2 ∧ retAddr (s.get_tx_frame).1 ≠ some X := by
  obtain ⟨hrp, hrc, htp, htc, hfp, hfc, hcp, hcc⟩ := hwf
  rw [not_mem_owned] at hX
  obtain ⟨hfree, hpend, hfill, hcomp, hrx, htx⟩ := hX
  have hdrain : X ∉ XdpSocket.drainComp s.comp_ring.slots s.comp_ring.consumer
      (ringOcc s.comp_ring.producer s.comp_ring.consumer) := by
    rw [drainComp_eq]
    exact hcomp
  have hfree2 : X ∉ s.tx_free_frames ++ XdpSocket.drainComp s.comp_ring.slots
      s.comp_ring.consumer (ringOcc s.comp_ring.producer s.comp_ring.consumer) := by
    intro hmem
    rcases List.mem_append.mp hmem with h | h
    · exact hfree h
    · exact hdrain h
  have hcons2 : (s.comp_ring.consumer + ringOcc s.comp_ring.producer s.comp_ring.consumer) % U32
      = s.comp_ring.producer := cons_add_occ _ _ hcc hcp
  have hcomp2 : X ∉ u64Live
      { producer := s.comp_ring.producer,
        consumer := (s.comp_ring.consumer +
          ringOcc s.comp_ring.producer s.comp_ring.consumer) % U32,
        slots := s.comp_ring.slots } := by
    rw [not_mem_u64Live]
    intro k hk
    exfalso
    simp only [hcons2, ringOcc_self] at hk
    omega
  simp only [XdpSocket.get_tx_frame]
  split
  · constructor
    · rw [not_mem_owned]
      exact ⟨hfree2, hpend, hfill, hcomp2, hrx, htx⟩
    · simp [retAddr]
  · split
    next a heq =>
      have ha : a ∈ s.tx_free_frames ++ XdpSocket.drainComp s.comp_ring.slots
          s.comp_ring.consumer (ringOcc s.comp_ring.producer s.comp_ring.consumer) := by
        have hmem : a ∈ (s.tx_free_frames ++ XdpSocket.drainComp s.comp_ring.slots
            s.comp_ring.consumer
            (ringOcc s.comp_ring.producer s.comp_ring.consumer)).getLast? := heq
        obtain ⟨hne, hlast⟩ := List.mem_getLast?_eq_getLast hmem
        rw [hlast]
        exact List.getLast_mem hne
      have haX : a ≠ X := fun h => hfree2 (h ▸ ha)
      constructor
      · rw [not_mem_owned]
        refine ⟨?_, ?_, hfill, hcomp2, hrx, htx⟩
        · intro hmem
          exact hfree2 (List.dropLast_subset _ hmem)
        · intro hsome
          injection hsome with h2
          exact haX h2
      · simp [retAddr]
        exact haX
    next heq =>
      constructor
      · rw [not_mem_owned]
        exact ⟨hfree2, hpend, hfill, hcomp2, hrx, htx⟩
      · simp [retAddr]

/-- tx_submit preserves non-ownership of X. -/
theorem owned_txSubmit (s : XdpSocket) (X : Nat) (len : Nat) (r : Int)
    (hwf : WF s) (hX : X ∉ owned s) : X ∉ owned (s.tx_submit len r) := by
  obtain ⟨hrp, hrc, htp, htc, hfp, hfc, hcp, hcc⟩ := hwf
  rw [not_mem_owned] at hX
  obtain ⟨hfree, hpend, hfill, hcomp, hrx, htx⟩ := hX
  unfold XdpSocket.tx_submit
  split
  · rw [not_mem_owned]
    exact ⟨hfree, hpend, hfill, hcomp, hrx, htx⟩
  next a heq =>
    have haX : a ≠ X := by
      intro h
      exact hpend (by rw [heq, h])
    rw [not_mem_owned]
    refine ⟨hfree, by simp, hfill, hcomp, hrx, ?_⟩
    rw [not_mem_descLive]
    intro k hk
    have hold := (not_mem_descLive _ _).mp htx
    have := publish_slot s.tx_ring.slots s.tx_ring.producer s.tx_ring.consumer
      htp htc { addr := a, len := len % U32, options := 0 }
      (fun d => d.addr ≠ X) haX hold k hk
    simpa [setDesc] using this

/-- cancel_tx preserves non-ownership of X. -/
theorem owned_cancel (s : XdpSocket) (X : Nat) (hX : X ∉ owned s) :
    X ∉ owned (s.cancel_tx) := by
  rw [not_mem_owned] at hX
  obtain ⟨hfree, hpend, hfill, hcomp, hrx, htx⟩ := hX
  unfold XdpSocket.cancel_tx
  split
  · rw [not_mem_owned]
    exact ⟨hfree, hpend, hfill, hcomp, hrx, htx⟩
  next a heq =>
    have haX : a ≠ X := by
      intro h
      exact hpend (by rw [heq, h])
    rw [not_mem_owned]
    refine ⟨?_, by simp, hfill, hcomp, hrx, htx⟩
    intro hmem
    rcases List.mem_append.mp hmem with h | h
    · exact hfree h
    · simp at h
      exact haX h.symm

/-- Every driver call preserves well-formedness and non-ownership of X. -/
theorem owned_applyOp (s : XdpSocket) (X : Nat) (op : XdpOp)
    (hwf : WF s) (hX : X ∉ owned s) :
    WF (applyOp s op) ∧ X ∉ owned (applyOp s op) := by
  cases op with
  | pollRx => exact ⟨WF_pollRx s hwf, (owned_pollRx s X hwf hX).1⟩
  | getTxFrame => exact ⟨WF_getTx s hwf, (owned_getTx s X hwf hX).1⟩
  | txSubmit len r => exact ⟨WF_txSubmit s len r hwf, owned_txSubmit s X len r hwf hX⟩
  | cancelTx => exact ⟨WF_cancel s hwf, owned_cancel s X hX⟩

/-- Any sequence of driver calls preserves well-formedness and
non-ownership of X. -/
theorem owned_runOps (X : Nat) (ops : List XdpOp) :
    ∀ s : XdpSocket, WF s → X ∉ owned s →
      WF (runOps s ops) ∧ X ∉ owned (runOps s ops) := by
  induction ops with
  | nil => exact fun s hwf hX => ⟨hwf, hX⟩
  | cons op ops ih =>
      intro s hwf hX
      obtain ⟨hwf2, hX2⟩ := owned_applyOp s X op hwf hX
      exact ih (applyOp s op) hwf2 hX2

/-- Below RING_SIZE the mask is the identity. -/
theorem maskIdx_of_lt {x : Nat} (h : x < RING_SIZE) : maskIdx x = x := by
  rw [maskIdx_eq_mod]
  exact Nat.mod_eq_of_lt h

/-- Below U32 the u32 reduction is the identity. -/
theorem mod_U32_of_lt {x : Nat} (h : x < U32) : x % U32 = x := Nat.mod_eq_of_lt h

/-- RING_SIZE is far below the u32 modulus. -/
theorem RING_SIZE_lt_U32 : RING_SIZE < U32 := by
  rw [U32_eq]
  norm_num [RING_SIZE]

/-- Producer value after the FILL-seeding loop: advanced by the
iteration count, as long as no u32 wrap occurs. -/
theorem seedFillFrom_snd (n : Nat) :
    ∀ slots p i, p + n ≤ RING_SIZE → (seedFillFrom slots p i n).2 = p + n := by
  induction n with
  | zero => intro slots p i _; simp [seedFillFrom]
  | succ m ih =>
      intro slots p i h
      have hp1 : (p + 1) % U32 = p + 1 :=
        mod_U32_of_lt (by have := RING_SIZE_lt_U32; omega)
      show (seedFillFrom (setSlot slots (maskIdx p) (i * FRAME_SIZE)) ((p + 1) % U32) (i + 1) m).2 = p + (m + 1)
      rw [hp1, ih _ (p + 1) (i + 1) (by omega)]
      omega

/-- Slot contents after the FILL-seeding loop: positions p … p + n - 1
hold consecutive frame offsets; other positions are untouched. -/
theorem seedFillFrom_fst (n : Nat) :
    ∀ slots p i j, p + n ≤ RING_SIZE →
      (seedFillFrom slots p i n).1 j =
        if p ≤ j ∧ j < p + n then (i + (j - p)) * FRAME_SIZE else slots j := by
  induction n with
  | zero =>
      intro slots p i j _
      simp only [seedFillFrom]
      rw [if_neg (by omega)]
  | succ m ih =>
      intro slots p i j h
      have hp1 : (p + 1) % U32 = p + 1 :=
        mod_U32_of_lt (by have := RING_SIZE_lt_U32; omega)
      have hmask : maskIdx p = p := maskIdx_of_lt (by omega)
      show (seedFillFrom (setSlot slots (maskIdx p) (i * FRAME_SIZE)) ((p + 1) % U32) (i + 1) m).1 j
        = if p ≤ j ∧ j < p + (m + 1) then (i + (j - p)) * FRAME_SIZE else slots j
      rw [hp1, ih _ (p + 1) (i + 1) j (by omega), hmask]
      unfold setSlot
      by_cases h1 : p + 1 ≤ j ∧ j < p + 1 + m
      · rw [if_pos h1, if_pos (by omega)]
        have : i + 1 + (j - (p + 1)) = i + (j - p) := by omega
        rw [this]
      · rw [if_neg h1]
        by_cases h2 : j = p
        · rw [if_pos h2, if_pos (by omega), h2]
          simp
        · rw [if_neg h2, if_neg (by omega)]

set_option maxRecDepth 8000 in
/-- The seeded FILL producer on a fresh ring is NUM_FRAMES / 2. -/
theorem seedFill_fresh_producer : (seedFill freshU64Ring).producer = NUM_FRAMES / 2 := by
  show (seedFillFrom (fun _ => 0) 0 0 (NUM_FRAMES / 2)).2 = NUM_FRAMES / 2
  rw [seedFillFrom_snd (NUM_FRAMES / 2) _ 0 0
    (by rw [NUM_FRAMES_eq]; norm_num [RING_SIZE])]
  omega

set_option maxRecDepth 8000 in
/-- The live region of the seeded FILL ring on a fresh ring is exactly
the first NUM_FRAMES / 2 frame offsets, in order. -/
theorem seedFill_fresh_live :
    u64Live (seedFill freshU64Ring) =
      (List.range (NUM_FRAMES / 2)).map (fun i => i * FRAME_SIZE) := by
  have hN : NUM_FRAMES / 2 = 1024 := by rw [NUM_FRAMES_eq]
  unfold u64Live
  rw [seedFill_fresh_producer]
  have hocc : ringOcc (NUM_FRAMES / 2) (seedFill freshU64Ring).consumer = NUM_FRAMES / 2 := by
    show ringOcc (NUM_FRAMES / 2) 0 = NUM_FRAMES / 2
    unfold ringOcc
    rw [U32_eq, hN]
  rw [hocc]
  apply List.map_congr_left
  intro k hk
  rw [List.mem_range, hN] at hk
  have hmask : maskIdx ((seedFill freshU64Ring).consumer + k) = k := by
    show maskIdx (0 + k) = k
    rw [Nat.zero_add]
    exact maskIdx_of_lt (by norm_num [RING_SIZE]; omega)
  rw [hmask]
  show (seedFillFrom (fun _ => 0) 0 0 (NUM_FRAMES / 2)).1 k = k * FRAME_SIZE
  rw [seedFillFrom_fst (NUM_FRAMES / 2) _ 0 0 k
    (by rw [hN]; norm_num [RING_SIZE])]
  rw [if_pos ⟨Nat.zero_le _, by rw [hN]; omega⟩]
  simp

/-- The tail half of the frame-index range, as an offset-shifted range. -/
theorem drop_range_half :
    (List.range NUM_FRAMES).drop (NUM_FRAMES / 2) =
      (List.range (NUM_FRAMES / 2)).map (fun k => NUM_FRAMES / 2 + k) := by
  have h2 : List.range NUM_FRAMES = List.range (NUM_FRAMES / 2 + NUM_FRAMES / 2) := by
    norm_num [NUM_FRAMES_eq]
  rw [h2, List.range_add, List.drop_left' (List.length_range (NUM_FRAMES / 2))]

/-- Splitting the frame-index range at its midpoint. -/
theorem range_split_half :
    List.range NUM_FRAMES =
      List.range (NUM_FRAMES / 2) ++ (List.range NUM_FRAMES).drop (NUM_FRAMES / 2) := by
  rw [drop_range_half]
  have h2 : List.range NUM_FRAMES = List.range (NUM_FRAMES / 2 + NUM_FRAMES / 2) := by
    norm_num [NUM_FRAMES_eq]
  rw [h2, List.range_add]

set_option maxRecDepth 8000 in
/-- A successful construction yields exactly the seeded FILL ring, the
upper-half free-list, no pending frame, and the kernel-mapped rings. -/
theorem new_ok_fields (env : SyscallEnv) (s : XdpSocket)
    (h : XdpSocket.new env = .ok s) :
    s.fill_ring = seedFill env.fill0 ∧
    s.tx_free_frames =
      ((List.range NUM_FRAMES).drop (NUM_FRAMES / 2)).map (fun i => i * FRAME_SIZE) ∧
    s.pending_tx_addr = none ∧ s.rx_ring = env.rx0 ∧ s.tx_ring = env.tx0 ∧
    s.comp_ring = env.comp0 := by
  simp only [XdpSocket.new] at h
  repeat' split at h
  any_goals exact Except.noConfusion h
  injection h with h2
  subst h2
  exact ⟨rfl, rfl, rfl, rfl, rfl, rfl⟩

/-- C3: poll_rx returns none iff the RX producer index equals the RX
consumer index; otherwise it returns the (offset, len) of the descriptor
at slot consumer & (RING_SIZE - 1), advances the RX consumer by exactly
one, and re-publishes that same offset onto the FILL ring, advancing the
FILL producer by exactly one. -/
theorem C3_poll_rx_contract (s : XdpSocket) :
    ((s.poll_rx).1 = none ↔ s.rx_ring.producer = s.rx_ring.consumer) ∧
    (s.rx_ring.consumer ≠ s.rx_ring.producer →
      (s.poll_rx).1 = some ((s.rx_ring.slots (maskIdx s.rx_ring.consumer)).addr,
                            (s.rx_ring.slots (maskIdx s.rx_ring.consumer)).len) ∧
      (s.poll_rx).2.rx_ring.consumer = (s.rx_ring.consumer + 1) % U32 ∧
      (s.poll_rx).2.fill_ring.producer = (s.fill_ring.producer + 1) % U32 ∧
      (s.poll_rx).2.fill_ring.slots (maskIdx s.fill_ring.producer) =
        (s.rx_ring.slots (maskIdx s.rx_ring.consumer)).addr) := by
  by_cases hc : s.rx_ring.consumer = s.rx_ring.producer
  · rw [poll_rx_eq_none s hc]
    constructor
    · simp [hc]
    · intro hne
      exact absurd hc hne
  · rw [poll_rx_eq_some s hc]
    constructor
    · constructor
      · intro hx
        exact absurd hx (by simp)
      · intro hp
        exact absurd hp.symm hc
    · intro _
      exact ⟨rfl, rfl, rfl, by simp [setSlot]⟩

/-- C3 witness: on the concrete single-descriptor state, poll_rx returns
(0, 64). -/
theorem C3_witness :
    sEx3.rx_ring.consumer ≠ sEx3.rx_ring.producer ∧
      (sEx3.poll_rx).1 = some (0, 64) :=
  ⟨by decide, ((C3_poll_rx_contract sEx3).2 (by decide)).1⟩

/-- C1 counterexample: with FILL full (occupancy RING_SIZE) and RX
non-empty, poll_rx does not leave the FILL producer unchanged — it
advances it, contradicting the claimed dropped recycle. -/
theorem C1_counterexample :
    ringOcc sEx1.fill_ring.producer sEx1.fill_ring.consumer = RING_SIZE ∧
    sEx1.rx_ring.consumer ≠ sEx1.rx_ring.producer ∧
    (sEx1.poll_rx).2.fill_ring.producer ≠ sEx1.fill_ring.producer := by
  refine ⟨by decide, by decide, ?_⟩
  rw [poll_rx_eq_some sEx1 (by decide)]
  decide

/-- C1 (amended): with FILL full and RX non-empty, poll_rx still returns
the dequeued descriptor and advances the RX consumer, but it performs the
recycle anyway: it overwrites the FILL slot at fill_producer & mask and
advances the FILL producer, so the FILL occupancy becomes RING_SIZE + 1,
exceeding RING_SIZE. -/
theorem C1_full_fill_recycles_anyway (s : XdpSocket)
    (hfull : ringOcc s.fill_ring.producer s.fill_ring.consumer = RING_SIZE)
    (hne : s.rx_ring.consumer ≠ s.rx_ring.producer)
    (hfp : s.fill_ring.producer < U32) (hfc : s.fill_ring.consumer < U32) :
    (s.poll_rx).1 = some ((s.rx_ring.slots (maskIdx s.rx_ring.consumer)).addr,
                          (s.rx_ring.slots (maskIdx s.rx_ring.consumer)).len) ∧
    (s.poll_rx).2.rx_ring.consumer = (s.rx_ring.consumer + 1) % U32 ∧
    (s.poll_rx).2.fill_ring.producer = (s.fill_ring.producer + 1) % U32 ∧
    (s.poll_rx).2.fill_ring.slots (maskIdx s.fill_ring.producer) =
      (s.rx_ring.slots (maskIdx s.rx_ring.consumer)).addr ∧
    ringOcc (s.poll_rx).2.fill_ring.producer (s.poll_rx).2.fill_ring.consumer =
      RING_SIZE + 1 := by
  rw [poll_rx_eq_some s hne]
  refine ⟨rfl, rfl, rfl, by simp [setSlot], ?_⟩
  show ringOcc ((s.fill_ring.producer + 1) % U32) s.fill_ring.consumer = RING_SIZE + 1
  rw [ringOcc_publish _ _ hfc hfp, hfull]
  decide

/-- C1 witness: the amended behaviour on the concrete full-FILL state. -/
theorem C1_witness :
    (ringOcc sEx1.fill_ring.producer sEx1.fill_ring.consumer = RING_SIZE ∧
     sEx1.rx_ring.consumer ≠ sEx1.rx_ring.producer ∧
     sEx1.fill_ring.producer < U32 ∧ sEx1.fill_ring.consumer < U32) ∧
    ringOcc (sEx1.poll_rx).2.fill_ring.producer (sEx1.poll_rx).2.fill_ring.consumer =
      RING_SIZE + 1 :=
  ⟨⟨by decide, by decide, by decide, by decide⟩,
   (C1_full_fill_recycles_anyway sEx1 (by decide) (by decide) (by decide)
     (by decide)).2.2.2.2⟩

/-- C4: get_tx_frame first drains every newly completed offset from the
COMPLETION ring onto the TX free-list and advances the COMPLETION
consumer to the producer; second, if tx_producer - tx_consumer ≥
RING_SIZE under 32-bit wrap subtraction it returns none even when the
free-list is non-empty; third, it pops one offset from the free-list
(none if empty), records it as the pending-TX slot, and returns the
FRAME_SIZE-byte slice at UMEM + offset. -/
theorem C4_get_tx_frame_contract (s : XdpSocket)
    (hc : s.comp_ring.consumer < U32) (hp : s.comp_ring.producer < U32) :
    (s.get_tx_frame).2.comp_ring.consumer = s.comp_ring.producer ∧
    XdpSocket.drainComp s.comp_ring.slots s.comp_ring.consumer
        (ringOcc s.comp_ring.producer s.comp_ring.consumer) = u64Live s.comp_ring ∧
    (RING_SIZE ≤ ringOcc s.tx_ring.producer s.tx_ring.consumer →
      (s.get_tx_frame).1 = none ∧
      (s.get_tx_frame).2.tx_free_frames =
        s.tx_free_frames ++ u64Live s.comp_ring ∧
      (s.get_tx_frame).2.pending_tx_addr = s.pending_tx_addr) ∧
    (ringOcc s.tx_ring.producer s.tx_ring.consumer < RING_SIZE →
      ((s.tx_free_frames ++ u64Live s.comp_ring = []) →
        (s.get_tx_frame).1 = none ∧
        (s.get_tx_frame).2.pending_tx_addr = s.pending_tx_addr) ∧
      (∀ a, (s.tx_free_frames ++ u64Live s.comp_ring).getLast? = some a →
        (s.get_tx_frame).1 = some (a, FRAME_SIZE) ∧
        (s.get_tx_frame).2.tx_free_frames =
          (s.tx_free_frames ++ u64Live s.comp_ring).dropLast ∧
        (s.get_tx_frame).2.pending_tx_addr = some a)) := by
  have hdr : XdpSocket.drainComp s.comp_ring.slots s.comp_ring.consumer
      (ringOcc s.comp_ring.producer s.comp_ring.consumer) = u64Live s.comp_ring := by
    rw [drainComp_eq]
    rfl
  have hcons2 : (s.comp_ring.consumer +
      ringOcc s.comp_ring.producer s.comp_ring.consumer) % U32 = s.comp_ring.producer :=
    cons_add_occ _ _ hc hp
  simp only [XdpSocket.get_tx_frame]
  split
  next htx =>
    refine ⟨hcons2, hdr, fun _ => ⟨rfl, by rw [hdr], rfl⟩, fun hlt => absurd htx (by omega)⟩
  next htx =>
    rw [Nat.not_le] at htx
    refine ⟨?_, hdr, fun hge => absurd htx (by omega), fun _ => ⟨?_, ?_⟩⟩
    · split
      next a heq => exact hcons2
      next heq => exact hcons2
    · intro hnil
      rw [hdr] at *
      split
      next a heq =>
        rw [hnil] at heq
        cases heq
      next heq => exact ⟨rfl, rfl⟩
    · intro a ha
      rw [hdr] at *
      split
      next b heq =>
        rw [ha] at heq
        injection heq with hba
        subst hba
        exact ⟨rfl, rfl, rfl⟩
      next heq =>
        rw [ha] at heq
        cases heq

/-- C4 witness: on the concrete state with two completed offsets, the
drain advances the COMPLETION consumer to the producer and the pop
returns offset 16384 with a FRAME_SIZE slice. -/
theorem C4_witness :
    (sEx4.comp_ring.consumer < U32 ∧ sEx4.comp_ring.producer < U32 ∧
     ringOcc sEx4.tx_ring.producer sEx4.tx_ring.consumer < RING_SIZE ∧
     (sEx4.tx_free_frames ++ u64Live sEx4.comp_ring).getLast? = some 16384) ∧
    (sEx4.get_tx_frame).2.comp_ring.consumer = sEx4.comp_ring.producer ∧
    (sEx4.get_tx_frame).1 = some (16384, FRAME_SIZE) :=
  ⟨⟨by decide, by decide, by decide, by decide⟩,
   (C4_get_tx_frame_contract sEx4 (by decide) (by decide)).1,
   (((C4_get_tx_frame_contract sEx4 (by decide) (by decide)).2.2.2
      (by decide)).2 16384 (by decide)).1⟩

/-- C5: with a pending-TX slot holding X, tx_submit(len) writes the TX
descriptor at slot tx_producer & (RING_SIZE - 1) as {addr = X, len,
options = 0}, advances the TX producer by exactly one, clears the
pending slot, and the ignored sendto result never influences the outcome
— the result is identical for every sendto return value and no error is
surfaced. -/
theorem C5_tx_submit_contract (s : XdpSocket) (X : Nat) (len : Nat) (r : Int)
    (hpend : s.pending_tx_addr = some X) (hlen : len < U32) :
    (s.tx_submit len r).tx_ring.slots (maskIdx s.tx_ring.producer) =
      { addr := X, len := len, options := 0 } ∧
    (s.tx_submit len r).tx_ring.producer = (s.tx_ring.producer + 1) % U32 ∧
    (s.tx_submit len r).pending_tx_addr = none ∧
    (∀ j, j ≠ maskIdx s.tx_ring.producer →
      (s.tx_submit len r).tx_ring.slots j = s.tx_ring.slots j) ∧
    (s.tx_submit len r).tx_ring.consumer = s.tx_ring.consumer ∧
    (s.tx_submit len r).rx_ring = s.rx_ring ∧
    (s.tx_submit len r).fill_ring = s.fill_ring ∧
    (s.tx_submit len r).comp_ring = s.comp_ring ∧
    (s.tx_submit len r).tx_free_frames = s.tx_free_frames ∧
    (∀ r2 : Int, s.tx_submit len r2 = s.tx_submit len r) := by
  unfold XdpSocket.tx_submit
  rw [hpend]
  refine ⟨?_, rfl, rfl, ?_, rfl, rfl, rfl, rfl, rfl, fun r2 => rfl⟩
  · simp [setDesc, mod_U32_of_lt hlen]
  · intro j hj
    simp [setDesc, hj]

/-- C5 witness: submitting length 100 from the concrete pending state
writes {addr = 4096, len = 100, options = 0}. -/
theorem C5_witness :
    (sEx5.pending_tx_addr = some 4096 ∧ (100 : Nat) < U32) ∧
    (sEx5.tx_submit 100 0).tx_ring.slots (maskIdx sEx5.tx_ring.producer) =
      { addr := 4096, len := 100, options := 0 } :=
  ⟨⟨rfl, by decide⟩, (C5_tx_submit_contract sEx5 4096 100 0 rfl (by decide)).1⟩

/-- C7: from a state with no pending-TX slot, an empty COMPLETION ring,
a TX ring that is not full, and a non-empty free-list, get_tx_frame
followed by cancel_tx restores the entire socket state — in particular
the TX free-list — and therefore any number of repetitions of the pair
is the identity. -/
theorem C7_get_cancel_roundtrip (s : XdpSocket)
    (hpend : s.pending_tx_addr = none)
    (hcomp : s.comp_ring.producer = s.comp_ring.consumer)
    (hcc : s.comp_ring.consumer < U32)
    (htx : ringOcc s.tx_ring.producer s.tx_ring.consumer < RING_SIZE)
    (hfree : s.tx_free_frames ≠ []) :
    ((s.get_tx_frame).2.cancel_tx = s ∧
     (s.get_tx_frame).2.cancel_tx.tx_free_frames = s.tx_free_frames) ∧
    ∀ n : Nat, (fun t : XdpSocket => (t.get_tx_frame).2.cancel_tx)^[n] s = s := by
  have hocc : ringOcc s.comp_ring.producer s.comp_ring.consumer = 0 := by
    rw [hcomp]
    exact ringOcc_self _
  have hstep : (s.get_tx_frame).2.cancel_tx = s := by
    simp only [XdpSocket.get_tx_frame, hocc]
    rw [if_neg (by omega)]
    have hnil : XdpSocket.drainComp s.comp_ring.slots s.comp_ring.consumer 0 = [] := rfl
    rw [hnil, List.append_nil]
    have hlast : ∃ a, s.tx_free_frames.getLast? = some a := by
      rw [List.getLast?_eq_getLast_of_ne_nil hfree]
      exact ⟨_, rfl⟩
    obtain ⟨a, ha⟩ := hlast
    rw [ha]
    simp only [XdpSocket.cancel_tx]
    rw [List.dropLast_append_getLast? a ha]
    have hcons : (s.comp_ring.consumer + 0) % U32 = s.comp_ring.consumer := by
      rw [Nat.add_zero]
      exact mod_U32_of_lt hcc
    cases s with
    | mk rx tx fill comp free pend =>
        simp only at *
        subst hpend
        simp [hcons, Nat.mod_eq_of_lt hcc]
  have hstep2 : (fun t : XdpSocket => (t.get_tx_frame).2.cancel_tx) s = s := hstep
  refine ⟨⟨hstep, by rw [hstep]⟩, fun n =>
    Function.iterate_fixed (f := fun t : XdpSocket => (t.get_tx_frame).2.cancel_tx) hstep2 n⟩

/-- C7 witness: the pair restores the concrete idle state with free-list
[4096]. -/
theorem C7_witness :
    (sEx7.pending_tx_addr = none ∧
     sEx7.comp_ring.producer = sEx7.comp_ring.consumer ∧
     sEx7.comp_ring.consumer < U32 ∧
     ringOcc sEx7.tx_ring.producer sEx7.tx_ring.consumer < RING_SIZE ∧
     sEx7.tx_free_frames ≠ []) ∧
    (sEx7.get_tx_frame).2.cancel_tx.tx_free_frames = sEx7.tx_free_frames :=
  ⟨⟨rfl, rfl, by decide, by decide, by decide⟩,
   (C7_get_cancel_roundtrip sEx7 rfl rfl (by decide) (by decide) (by decide)).1.2⟩

/-- C8 counterexample: parsing an empty command line (no interface name
supplied anywhere) succeeds with the declared default iface eth0 instead
of failing, so the flag is not required. -/
theorem C8_counterexample : parseArgs [] = .ok { iface := "eth0" } := rfl

/-- C8 (amended): the iface flag is optional: with no interface supplied
parsing succeeds with the default eth0, and when --iface or -i is
supplied with a value, parsing succeeds with that value. -/
theorem C8_iface_default (v : String) :
    parseArgs [] = .ok { iface := "eth0" } ∧
    parseArgs ["--iface", v] = .ok { iface := v } ∧
    parseArgs ["-i", v] = .ok { iface := v } :=
  ⟨rfl, rfl, rfl⟩

/-- C2 counterexample: with all four ring-size setsockopt calls, the
offsets query, and both bind attempts failing (and every checked call
succeeding), new still returns a constructed socket, not an error. -/
theorem C2_counterexample :
    envBad.fill_size_ok = false ∧ envBad.comp_size_ok = false ∧
    envBad.rx_size_ok = false ∧ envBad.tx_size_ok = false ∧
    envBad.offsets_ok = false ∧ envBad.bind1_ok = false ∧
    envBad.bind2_ok = false ∧ ∃ s, XdpSocket.new envBad = .ok s :=
  ⟨rfl, rfl, rfl, rfl, rfl, rfl, rfl, ⟨_, rfl⟩⟩

/-- C2 (amended): new surfaces exactly the failures of socket creation,
UMEM allocation (both mmap attempts), UMEM registration, the four ring
mmaps, and the interface-name CString conversion; the outcomes of the
four ring-size sets, the offsets query, and both bind attempts never
affect whether a socket is returned. -/
theorem C2_setup_surfacing (env : SyscallEnv) :
    (∃ s, XdpSocket.new env = .ok s) ↔
      (env.socket_ok && (env.huge_ok || env.regular_ok) && env.umem_reg_ok &&
       env.fill_map_ok && env.comp_map_ok && env.rx_map_ok && env.tx_map_ok &&
       env.cstring_ok) = true := by
  obtain ⟨so, hu, re, ur, f1, c1, r1, t1, off, fm, cm, rm, tm, cs, b1, b2, A, B, C, D⟩ := env
  simp only [XdpSocket.new, allocate_umem]
  cases so <;> cases hu <;> cases re <;> cases ur <;> cases fm <;> cases cm <;>
    cases rm <;> cases tm <;> cases cs <;> simp

/-- C10: for every received byte slice of any length and contents, the
transaction-parsing step performs only in-bounds reads: it never reaches
the out-of-bounds panic case, because every index access and sub-slice
is guarded by a preceding length comparison. -/
theorem C10_parse_in_bounds (raw : List Nat) : parsePacket raw ≠ none := by
  intro hcontra
  simp only [parsePacket, readByte, readSlice] at hcontra
  repeat' split at hcontra
  all_goals try exact Option.noConfusion hcontra
  all_goals try simp_all [List.get?_eq_none]
  all_goals
    rename_i hguard hcatch
    exact hcatch _ _ (List.getElem?_eq_getElem (by omega))
      (List.getElem?_eq_getElem (by omega))

/-- C6: immediately after a successful new on freshly mapped rings, the
FILL ring's live region is exactly the NUM_FRAMES/2 frame offsets 0,
FRAME_SIZE, …, (NUM_FRAMES/2 - 1)·FRAME_SIZE with the producer stored
once at NUM_FRAMES/2, the TX free-list is exactly the remaining
NUM_FRAMES/2 offsets, and the two sets are disjoint and together cover
all NUM_FRAMES frame offsets. -/
theorem C6_initial_partition (env : SyscallEnv) (s : XdpSocket)
    (h : XdpSocket.new env = .ok s) (hf : env.fill0 = freshU64Ring) :
    s.fill_ring.producer = NUM_FRAMES / 2 ∧
    s.fill_ring.consumer = 0 ∧
    u64Live s.fill_ring = (List.range (NUM_FRAMES / 2)).map (fun i => i * FRAME_SIZE) ∧
    s.tx_free_frames =
      ((List.range NUM_FRAMES).drop (NUM_FRAMES / 2)).map (fun i => i * FRAME_SIZE) ∧
    List.Disjoint (u64Live s.fill_ring) s.tx_free_frames ∧
    u64Live s.fill_ring ++ s.tx_free_frames =
      (List.range NUM_FRAMES).map (fun i => i * FRAME_SIZE) := by
  obtain ⟨hfill, hfree, hpend, hrx, htx, hcomp⟩ := new_ok_fields env s h
  rw [hf] at hfill
  rw [hfill, hfree]
  have hN : NUM_FRAMES / 2 = 1024 := by rw [NUM_FRAMES_eq]
  have hFS : FRAME_SIZE = 4096 := rfl
  refine ⟨seedFill_fresh_producer, rfl, seedFill_fresh_live, rfl, ?_, ?_⟩
  · rw [seedFill_fresh_live, drop_range_half]
    intro a ha hb
    simp only [List.mem_map, List.mem_range] at ha hb
    obtain ⟨k, hk, hka⟩ := ha
    obtain ⟨i, hi, hia⟩ := hb
    obtain ⟨j, hj, hji⟩ := hi
    subst hji
    rw [hFS] at hka hia
    rw [hN] at hk
    omega
  · rw [seedFill_fresh_live, ← List.map_append]
    exact congrArg (List.map (fun i => i * FRAME_SIZE)) range_split_half.symm

set_option maxRecDepth 8000 in
/-- C6 witness: on the all-succeeding fresh environment, new succeeds
and the FILL producer is NUM_FRAMES / 2. -/
theorem C6_witness :
    envAllOk.fill0 = freshU64Ring ∧
    ∃ s, XdpSocket.new envAllOk = .ok s ∧ s.fill_ring.producer = NUM_FRAMES / 2 :=
  ⟨rfl, ⟨_, rfl, (C6_initial_partition envAllOk _ rfl rfl).1⟩⟩

/-- C9: from a state whose pending-TX slot already holds X (and X is in
no other ownership set), a further successful get_tx_frame (COMPLETION
empty, TX ring not full, free-list non-empty) raises no error: it
returns a frame, silently overwrites the pending slot with the newly
popped offset, after which X is in none of the ownership sets, and no
sequence of later driver calls ever returns X to the caller or to any
ownership set. -/
theorem C9_pending_overwrite_leak (s : XdpSocket) (X : Nat)
    (hwf : WF s)
    (hpend : s.pending_tx_addr = some X)
    (hfree : X ∉ s.tx_free_frames)
    (hfill : X ∉ u64Live s.fill_ring) (hcompL : X ∉ u64Live s.comp_ring)
    (hrx : X ∉ descLive s.rx_ring) (htxL : X ∉ descLive s.tx_ring)
    (hcomp : s.comp_ring.producer = s.comp_ring.consumer)
    (htx : ringOcc s.tx_ring.producer s.tx_ring.consumer < RING_SIZE)
    (hne : s.tx_free_frames ≠ []) :
    ∃ a, (s.get_tx_frame).1 = some (a, FRAME_SIZE) ∧
      (s.get_tx_frame).2.pending_tx_addr = some a ∧ a ≠ X ∧
      X ∉ owned (s.get_tx_frame).2 ∧
      ∀ ops, X ∉ owned (runOps (s.get_tx_frame).2 ops) ∧
        retAddr ((runOps (s.get_tx_frame).2 ops).poll_rx).1 ≠ some X ∧
        retAddr ((runOps (s.get_tx_frame).2 ops).get_tx_frame).1 ≠ some X := by
  have hcc : s.comp_ring.consumer < U32 := hwf.2.2.2.2.2.2.2
  have hocc : ringOcc s.comp_ring.producer s.comp_ring.consumer = 0 := by
    rw [hcomp]
    exact ringOcc_self _
  have hnil : XdpSocket.drainComp s.comp_ring.slots s.comp_ring.consumer 0 = [] := rfl
  obtain ⟨a, ha⟩ : ∃ a, s.tx_free_frames.getLast? = some a := by
    rw [List.getLast?_eq_getLast_of_ne_nil hne]
    exact ⟨_, rfl⟩
  have hamem : a ∈ s.tx_free_frames := by
    obtain ⟨h9, h10⟩ := List.mem_getLast?_eq_getLast (show a ∈ s.tx_free_frames.getLast? from ha)
    rw [h10]
    exact List.getLast_mem h9
  have haX : a ≠ X := fun h => hfree (h ▸ hamem)
  have hgtf : s.get_tx_frame = (some (a, FRAME_SIZE),
      { s with tx_free_frames := s.tx_free_frames.dropLast,
               pending_tx_addr := some a }) := by
    simp only [XdpSocket.get_tx_frame, hocc, hnil, List.append_nil]
    rw [if_neg (by omega), ha]
    have hcons : (s.comp_ring.consumer + 0) % U32 = s.comp_ring.consumer := by
      rw [Nat.add_zero]
      exact mod_U32_of_lt hcc
    cases s with
    | mk rx tx fill comp free pend =>
        simp only at *
        simp [hcons, Nat.mod_eq_of_lt hcc]
  have hXs2 : X ∉ owned (s.get_tx_frame).2 := by
    rw [hgtf, not_mem_owned]
    refine ⟨?_, ?_, hfill, hcompL, hrx, htxL⟩
    · intro hmem
      exact hfree (List.dropLast_subset _ hmem)
    · intro hsome
      injection hsome with h2
      exact haX h2
  have hwf2 : WF (s.get_tx_frame).2 := WF_getTx s hwf
  refine ⟨a, by rw [hgtf], by rw [hgtf], haX, hXs2, fun ops => ?_⟩
  obtain ⟨hwf3, hX3⟩ := owned_runOps X ops (s.get_tx_frame).2 hwf2 hXs2
  exact ⟨hX3, (owned_pollRx _ X hwf3 hX3).2, (owned_getTx _ X hwf3 hX3).2⟩

/-- C9 witness: the concrete state with pending offset 5 and free-list
[8192]; the second get_tx_frame succeeds and overwrites the pending
slot. -/
theorem C9_witness :
    (WF sEx9 ∧ sEx9.pending_tx_addr = some 5 ∧ (5 : Nat) ∉ sEx9.tx_free_frames ∧
     sEx9.comp_ring.producer = sEx9.comp_ring.consumer ∧
     ringOcc sEx9.tx_ring.producer sEx9.tx_ring.consumer < RING_SIZE ∧
     sEx9.tx_free_frames ≠ []) ∧
    ∃ a, (sEx9.get_tx_frame).1 = some (a, FRAME_SIZE) ∧
      (sEx9.get_tx_frame).2.pending_tx_addr = some a ∧ a ≠ 5 ∧
      (5 : Nat) ∉ owned (sEx9.get_tx_frame).2 ∧
      ∀ ops, (5 : Nat) ∉ owned (runOps (sEx9.get_tx_frame).2 ops) ∧
        retAddr ((runOps (sEx9.get_tx_frame).2 ops).poll_rx).1 ≠ some 5 ∧
        retAddr ((runOps (sEx9.get_tx_frame).2 ops).get_tx_frame).1 ≠ some 5 :=
  ⟨⟨⟨by decide, by decide, by decide, by decide, by decide, by decide, by decide,
     by decide⟩, rfl, by decide, rfl, by decide, by decide⟩,
   C9_pending_overwrite_leak sEx9 5
     ⟨by decide, by decide, by decide, by decide, by decide, by decide, by decide,
      by decide⟩
     rfl (by decide) (by decide) (by decide) (by decide) (by decide) rfl
     (by decide) (by decide)⟩
